import Mathlib

/-!
Shallow embedding of `src/app.py` (SE weekly metrics Flask service).

Modelling conventions:
* Calendar dates are modelled as integers counting days from a fixed
  Monday epoch, so `weekday d = d % 7` matches Python's
  `datetime.weekday()` (Monday = 0, ..., Sunday = 6).
* Timestamps inside tickets are rationals (seconds); an empty/absent
  string field becomes `none`.
* Durations are rationals (days); Python `round(x, 1)` is modelled by
  round-half-to-even at one decimal over the rationals.
* Python strings are `String`, or `List Char` where substring scanning
  matters; `'%Y-%m-%d'` date formatting is modelled by `toString` on the
  integer day number (an injective rendering of the date).
-/

namespace SEMetrics

/-! ## Week-window computation (app.py lines 37-39 and 71-75) -/

/-- Python `today.weekday()` with days-since-a-Monday-epoch integers. -/
def weekday (d : ℤ) : ℤ := d % 7

/-- Week start of `/metrics` (app.py lines 73-74): this Monday minus 7 days. -/
def metrics_week_start (today : ℤ) : ℤ := (today - weekday today) - 7

/-- Week end of `/metrics` (app.py line 75): week start plus 6 days. -/
def metrics_week_end (today : ℤ) : ℤ := metrics_week_start today + 6

/-- Week start of `/test-dates` (app.py line 38): this Monday, no 7-day shift. -/
def test_dates_week_start (today : ℤ) : ℤ := today - weekday today

/-- Week end of `/test-dates` (app.py line 39). -/
def test_dates_week_end (today : ℤ) : ℤ := test_dates_week_start today + 6

/-- Model of `strftime('%Y-%m-%d')` on a day number: an injective rendering. -/
def dateStr (d : ℤ) : String := toString d

/-- Template of the new-tickets JQL (app.py line 89) as a function of a window. -/
def new_tickets_jql (ws we : ℤ) : String :=
  "project = SE AND created >= \"" ++ dateStr ws ++ "\" AND created <= \"" ++ dateStr we ++ "\""

/-- Template of the first resolved-tickets JQL (app.py line 122). -/
def resolved_jql1 (ws we : ℤ) : String :=
  "project = SE AND resolved >= \"" ++ dateStr ws ++ "\" AND resolved <= \"" ++ dateStr we ++ "\""

/-- Template of the second resolved-tickets JQL (app.py line 125). -/
def resolved_jql2 (ws we : ℤ) : String :=
  "project = SE AND status CHANGED TO \"Done\" DURING (\"" ++ dateStr ws ++ "\", \"" ++ dateStr we ++ "\")"

/-- Template of the active-tickets JQL (app.py line 177). -/
def active_jql (ws we : ℤ) : String :=
  "project = SE AND updated >= \"" ++ dateStr ws ++ "\" AND updated <= \"" ++ dateStr we
    ++ "\" AND status NOT IN (\"Done\", \"Closed\", \"Resolved\")"

/-- Template of the per-team transfer JQL (app.py line 209). -/
def transfer_jql (team : String) (ws we : ℤ) : String :=
  "project = " ++ team ++ " AND created >= \"" ++ dateStr ws ++ "\" AND created <= \""
    ++ dateStr we ++ "\" AND (text ~ \"SE-\" OR summary ~ \"SE-\")"

/-- The fixed team list of the transfer scan (app.py line 205). -/
def teams : List String := ["EIM", "ENGGMNT", "AM", "MRKT"]

/-- All JQL query strings `/metrics` issues, built exactly as the code inlines
them (app.py lines 71-75, 89, 122, 125, 177, 209): the window is computed once
and each f-string interpolates `week_start` / `week_end`. -/
def get_metrics_queries (today : ℤ) : List String :=
  let this_monday := today - weekday today
  let week_start := this_monday - 7
  let week_end := week_start + 6
  ["project = SE AND created >= \"" ++ dateStr week_start ++ "\" AND created <= \"" ++ dateStr week_end ++ "\"",
   "project = SE AND resolved >= \"" ++ dateStr week_start ++ "\" AND resolved <= \"" ++ dateStr week_end ++ "\"",
   "project = SE AND status CHANGED TO \"Done\" DURING (\"" ++ dateStr week_start ++ "\", \"" ++ dateStr week_end ++ "\")",
   "project = SE AND updated >= \"" ++ dateStr week_start ++ "\" AND updated <= \"" ++ dateStr week_end
     ++ "\" AND status NOT IN (\"Done\", \"Closed\", \"Resolved\")"]
  ++ teams.map (fun team =>
     "project = " ++ team ++ " AND created >= \"" ++ dateStr week_start ++ "\" AND created <= \""
       ++ dateStr week_end ++ "\" AND (text ~ \"SE-\" OR summary ~ \"SE-\")")

/-- The `jql_current` string echoed by `/test-dates` (app.py line 51), built
from the `/test-dates` window. -/
def test_dates_jql_current (today : ℤ) : String :=
  let week_start := today - weekday today
  let week_end := week_start + 6
  "project = SE AND created >= \"" ++ dateStr week_start ++ "\" AND created <= \"" ++ dateStr week_end ++ "\""

/-! ## Rounding and the average (app.py lines 250-251) -/

/-- Python 3 `round` to an integer: round-half-to-even over the rationals. -/
def pyRound (q : ℚ) : ℤ :=
  let n : ℤ := ⌊q⌋
  let f : ℚ := q - n
  if f < 1/2 then n
  else if 1/2 < f then n + 1
  else if n % 2 = 0 then n else n + 1

/-- Python `round(x, 1)`: one decimal place. -/
def pyRound1 (q : ℚ) : ℚ := (pyRound (10 * q) : ℚ) / 10

/-- The filtered duration list (app.py line 250): keep durations `>= 0`. -/
def resolution_times (ds : List ℚ) : List ℚ := ds.filter (fun d => 0 ≤ d)

/-- The `averageResolutionDays` value (app.py line 251): mean of the kept durations
rounded to one decimal, or `0.0` when nothing was kept. -/
def avg_resolution (ds : List ℚ) : ℚ :=
  let ts := resolution_times ds
  if ts = [] then 0 else pyRound1 (ts.sum / (ts.length : ℚ))

/-- Spec-side arithmetic mean of a list of rationals. -/
def arithMean (l : List ℚ) : ℚ := l.sum / (l.length : ℚ)

/-! ## Speed buckets (app.py lines 254-269) -/

inductive Bucket where
  | under_24h
  | one_to_3_days
  | three_to_7_days
  | over_7_days
  deriving DecidableEq, Repr

/-- The bucket a duration lands in (the if/elif chain of app.py lines 262-269). -/
def bucketOf (days : ℚ) : Bucket :=
  if days < 1 then .under_24h
  else if days ≤ 3 then .one_to_3_days
  else if days ≤ 7 then .three_to_7_days
  else .over_7_days

structure ResolutionBuckets where
  under_24h : ℕ
  one_to_3_days : ℕ
  three_to_7_days : ℕ
  over_7_days : ℕ
  deriving DecidableEq, Repr

/-- The bucket-counting loop of app.py lines 261-269, with the counters as
the accumulator: each duration increments the counter its if/elif branch
selects. -/
def count_buckets_from (b : ResolutionBuckets) : List ℚ → ResolutionBuckets
  | [] => b
  | days :: rest =>
      if days < 1 then count_buckets_from { b with under_24h := b.under_24h + 1 } rest
      else if days ≤ 3 then count_buckets_from { b with one_to_3_days := b.one_to_3_days + 1 } rest
      else if days ≤ 7 then count_buckets_from { b with three_to_7_days := b.three_to_7_days + 1 } rest
      else count_buckets_from { b with over_7_days := b.over_7_days + 1 } rest

/-- The bucket counters after processing the kept durations
(app.py lines 254-269): start at zero, increment per duration. -/
def count_buckets (ts : List ℚ) : ResolutionBuckets :=
  count_buckets_from ⟨0, 0, 0, 0⟩ ts

/-- Total of the four counters, as summed into `speedBuckets` of the response. -/
def buckets_total (b : ResolutionBuckets) : ℕ :=
  b.under_24h + b.one_to_3_days + b.three_to_7_days + b.over_7_days

/-! ## Changelog scan (app.py lines 343-357) and resolution days (137-172) -/

/-- One entry of a history's `items` list: a field transition record. -/
structure ChangeItem where
  field : String
  toString : String
  deriving DecidableEq, Repr

/-- One changelog history record: its `created` timestamp (modelled as a
rational, seconds) and its `items`. -/
structure History where
  created : ℚ
  items : List ChangeItem
  deriving DecidableEq, Repr

/-- The terminal-state list of app.py line 354. -/
def terminal_states : List String :=
  ["Done", "Resolved", "Closed", "Deployed/Done", "Complete"]

/-- Whether a history record carries a status transition into a terminal
state (the inner item loop of app.py lines 350-354). -/
def hasTerminalStatusItem (items : List ChangeItem) : Bool :=
  items.any (fun it => it.field == "status" && terminal_states.contains it.toString)

/-- Model of `find_resolution_date_in_changelog` (app.py lines 343-357): return the
`created` timestamp of the first history containing a status transition to a
terminal state, else `none`. -/
def find_resolution_date_in_changelog : List History → Option ℚ
  | [] => none
  | h :: hs =>
      if hasTerminalStatusItem h.items then some h.created
      else find_resolution_date_in_changelog hs

/-- A resolved-query issue as `/metrics` consumes it: `none` models an
empty/absent string field, `some t` a parseable timestamp. -/
structure RIssue where
  key : String
  created : Option ℚ
  resolved : Option ℚ
  histories : List History
  deriving DecidableEq, Repr

/-- The `resolution_days` of one resolved issue (app.py lines 140-163):
direct fields when both present, changelog fallback when only `created`
is present, `0` otherwise. -/
def resolution_days (i : RIssue) : ℚ :=
  match i.created, i.resolved with
  | some c, some r => ((r - c) / 3600) / 24
  | some c, none =>
      match find_resolution_date_in_changelog i.histories with
      | some rd => ((rd - c) / 3600) / 24
      | none => 0
  | none, _ => 0

/-! ## Merge of the two resolved queries (app.py lines 117-134) -/

/-- The dedup loop of app.py lines 127-134 over the concatenated responses:
an issue is appended iff its key was not seen before. -/
def merge_resolved (seen : List String) : List RIssue → List RIssue
  | [] => []
  | i :: rest =>
      if seen.contains i.key then merge_resolved seen rest
      else i :: merge_resolved (i.key :: seen) rest

/-! ## Incident classification (app.py lines 112-115) -/

/-- Here `startsWith pat text` holds when `pat` is an initial segment of `text`. -/
def startsWith : List Char → List Char → Bool
  | [], _ => true
  | _ :: _, [] => false
  | p :: ps, t :: ts => p == t && startsWith ps ts

/-- Python's substring test `pat in text`, as a left-to-right scan. -/
def containsSub (pat : List Char) : List Char → Bool
  | [] => startsWith pat []
  | t :: ts => startsWith pat (t :: ts) || containsSub pat ts

/-- Lower-case a string character by character, modelling `str.lower()`. -/
def lowerChars (s : List Char) : List Char := s.map Char.toLower

/-- Incident test (app.py lines 113-114): priority `Highest`/`Critical`, or
some label whose lower-casing contains `"incident"`. -/
def is_incident (priority : String) (labels : List String) : Bool :=
  (priority == "Highest" || priority == "Critical")
    || labels.any (fun label => containsSub "incident".toList (lowerChars label.toList))

/-! ## Transfer-ticket origin key extraction (app.py lines 213-241) -/

/-- Attempt to match the regex `SE-\d+` at the head of the text: on
`S`, `E`, `-` followed by at least one digit, return `SE-` plus the maximal
digit run (greedy `\d+`), else `none`. -/
def matchSEAt : List Char → Option (List Char)
  | 'S' :: 'E' :: '-' :: rest =>
      let ds := rest.takeWhile Char.isDigit
      if ds = [] then none else some ('S' :: 'E' :: '-' :: ds)
  | _ => none

/-- Model of `re.search(r'SE-\d+', text)`: try each start position left to right,
return the first (leftmost) match. -/
def re_search_se : List Char → Option (List Char)
  | [] => none
  | c :: cs =>
      match matchSEAt (c :: cs) with
      | some m => some m
      | none => re_search_se cs

/-- The transfer test of app.py line 222: `'SE-'` occurs in the summary or in
the description. -/
def is_se_transfer (summary description : List Char) : Bool :=
  containsSub "SE-".toList summary || containsSub "SE-".toList description

/-- The key `original_se_key` as computed in app.py lines 220-228: starts as
`"Unknown"`; when the ticket is a transfer, the regex searches
`summary + " " + description` and a match overwrites the default. -/
def original_se_key (summary description : List Char) : List Char :=
  if is_se_transfer summary description then
    match re_search_se (summary ++ ' ' :: description) with
    | some m => m
    | none => "Unknown".toList
  else "Unknown".toList

/-- Spec-side predicate: the text begins with `SE-` followed by at least
one digit. -/
def seMatchHead (t : List Char) : Prop :=
  ['S', 'E', '-'] <+: t ∧ (t.drop 3).head?.any Char.isDigit = true

/-- Spec-side predicate: the pattern `SE-` followed by at least one digit
occurs at position `i` of `text`. -/
def seMatchStartsAt (text : List Char) (i : ℕ) : Prop :=
  seMatchHead (text.drop i)

instance (t : List Char) : Decidable (seMatchHead t) := by
  unfold seMatchHead
  infer_instance

instance (text : List Char) (i : ℕ) : Decidable (seMatchStartsAt text i) := by
  unfold seMatchStartsAt
  infer_instance

/-! ## Paginated fetch (app.py lines 359-397) -/

/-- One upstream search response: HTTP status, the page of issues, and the
server-reported `total`. -/
structure JiraPage (α : Type) where
  status_code : ℕ
  issues : List α
  total : ℕ

/-- The pagination loop of `fetch_jira_data` (app.py lines 361-397):
`pages` lists the upstream responses in request order (the `k`-th request
receives `pages[k]`), `start_at` and `acc` are the loop state. A non-200
response stops the loop and returns the accumulator; otherwise the page is
appended and the loop stops unless the page was full and more remain. -/
def fetch_jira_data {α : Type} (max_results : ℕ) : List (JiraPage α) → ℕ → List α → List α
  | [], _, acc => acc
  | r :: rest, start_at, acc =>
      if r.status_code ≠ 200 then acc
      else
        let acc2 := acc ++ r.issues
        if r.issues.length < max_results ∨ start_at + max_results ≥ r.total then acc2
        else fetch_jira_data max_results rest (start_at + max_results) acc2

/-! ## Theorems -/

/-- Claim C1: for every list of derived resolution durations, the reported
`averageResolutionDays` equals the arithmetic mean of the non-negative
durations rounded to one decimal place, and equals `0.0` when there are no
non-negative durations. -/
theorem claim_C1_average (ds : List ℚ) :
    avg_resolution ds =
      if resolution_times ds = [] then 0
      else pyRound1 (arithMean (resolution_times ds)) := by
  simp [avg_resolution, arithMean]

/-- Claim C2: every non-negative duration is assigned to exactly one of the
four speed buckets, with boundaries `d < 1` / `1 ≤ d ≤ 3` / `3 < d ≤ 7` /
`7 < d`, and the boundary values 1, 3 and 7 land in the lower bucket. -/
theorem claim_C2_bucket_boundaries (d : ℚ) (h : 0 ≤ d) :
    (bucketOf d = .under_24h ↔ d < 1) ∧
    (bucketOf d = .one_to_3_days ↔ 1 ≤ d ∧ d ≤ 3) ∧
    (bucketOf d = .three_to_7_days ↔ 3 < d ∧ d ≤ 7) ∧
    (bucketOf d = .over_7_days ↔ 7 < d) ∧
    bucketOf (1 : ℚ) = .one_to_3_days ∧
    bucketOf (3 : ℚ) = .one_to_3_days ∧
    bucketOf (7 : ℚ) = .three_to_7_days := by
  refine ⟨?_, ?_, ?_, ?_, by norm_num [bucketOf], by norm_num [bucketOf],
    by norm_num [bucketOf]⟩ <;>
    unfold bucketOf <;> split_ifs <;> simp_all <;>
    first
      | linarith
      | (intros; linarith)
      | (constructor <;> linarith)

/-- Witness for claim C2 at the concrete duration 2. -/
theorem claim_C2_witness :
    (0 : ℚ) ≤ 2 ∧ (bucketOf 2 = .one_to_3_days ↔ (1 : ℚ) ≤ 2 ∧ (2 : ℚ) ≤ 3) :=
  ⟨by norm_num, (claim_C2_bucket_boundaries 2 (by norm_num)).2.1⟩

/-- Claim C7: the `/metrics` window starts `7 + weekday today` days before
`today`, is a Monday, ends six days later — the full calendar week
immediately preceding the current one — and every JQL query `/metrics`
issues is built from that same window. -/
theorem claim_C7_week_window (today : ℤ) :
    metrics_week_start today = today - (7 + weekday today) ∧
    weekday (metrics_week_start today) = 0 ∧
    metrics_week_end today = metrics_week_start today + 6 ∧
    metrics_week_start today + 7 = today - weekday today ∧
    get_metrics_queries today =
      [new_tickets_jql (metrics_week_start today) (metrics_week_end today),
       resolved_jql1 (metrics_week_start today) (metrics_week_end today),
       resolved_jql2 (metrics_week_start today) (metrics_week_end today),
       active_jql (metrics_week_start today) (metrics_week_end today)]
      ++ teams.map (fun team =>
           transfer_jql team (metrics_week_start today) (metrics_week_end today)) := by
  refine ⟨by unfold metrics_week_start; ring, ?_, rfl, by unfold metrics_week_start; ring, rfl⟩
  unfold weekday metrics_week_start weekday
  omega

/-- Counterexample to claim C8 as stated: on a Wednesday (day 2 of the
Monday-epoch model) the `/test-dates` window differs from the `/metrics`
window. -/
theorem claim_C8_counterexample :
    ¬ (test_dates_week_start 2 = metrics_week_start 2 ∧
       test_dates_week_end 2 = metrics_week_end 2) := by
  decide

/-- Claim C8 (amended): `/test-dates` echoes the current Monday-to-Sunday
week — exactly seven days after the `/metrics` window, not equal to it —
and its `jql_current` string is built from that current-week window. -/
theorem claim_C8_amended (today : ℤ) :
    test_dates_week_start today = metrics_week_start today + 7 ∧
    test_dates_week_end today = metrics_week_end today + 7 ∧
    weekday (test_dates_week_start today) = 0 ∧
    test_dates_week_end today = test_dates_week_start today + 6 ∧
    test_dates_jql_current today =
      new_tickets_jql (test_dates_week_start today) (test_dates_week_end today) := by
  refine ⟨by unfold test_dates_week_start metrics_week_start; ring, ?_, ?_, rfl, rfl⟩
  · unfold test_dates_week_end metrics_week_end test_dates_week_start metrics_week_start; ring
  · unfold weekday test_dates_week_start weekday
    omega

/-- Each duration increments exactly one of the four counters, so the loop
adds the list length to the total. -/
theorem buckets_total_count_from (ts : List ℚ) :
    ∀ b : ResolutionBuckets, buckets_total (count_buckets_from b ts) = buckets_total b + ts.length := by
  induction ts with
  | nil => intro b; simp [count_buckets_from]
  | cons d rest ih =>
      intro b
      unfold count_buckets_from
      split_ifs <;> rw [ih] <;> simp [buckets_total] <;> omega

/-- Claim C10: the four speed-bucket counts sum to the number of resolved
tickets with non-negative derived duration; that number is at most the
resolved-ticket count, and strictly less when some resolved ticket has a
negative derived duration. -/
theorem claim_C10_buckets_invariant (resolved : List RIssue) :
    buckets_total (count_buckets (resolution_times (resolved.map resolution_days)))
        = (resolved.filter (fun i => 0 ≤ resolution_days i)).length ∧
    (resolved.filter (fun i => 0 ≤ resolution_days i)).length ≤ resolved.length ∧
    ((∃ i ∈ resolved, resolution_days i < 0) →
        (resolved.filter (fun i => 0 ≤ resolution_days i)).length < resolved.length) := by
  refine ⟨?_, List.length_filter_le _ _, ?_⟩
  · rw [count_buckets, buckets_total_count_from]
    simp [buckets_total, resolution_times, List.filter_map, Function.comp_def]
  · intro ⟨i, hmem, hneg⟩
    exact List.length_filter_lt_length_iff_exists.mpr ⟨i, hmem, by simp; linarith⟩

/-- Witness for claim C10 on a two-ticket list with one negative duration. -/
theorem claim_C10_witness :
    (∃ i ∈ [(⟨"SE-1", some 0, some 86400, []⟩ : RIssue),
            (⟨"SE-2", some 86400, some 0, []⟩ : RIssue)], resolution_days i < 0) ∧
    ([(⟨"SE-1", some 0, some 86400, []⟩ : RIssue),
      (⟨"SE-2", some 86400, some 0, []⟩ : RIssue)].filter
        (fun i => 0 ≤ resolution_days i)).length <
      ([(⟨"SE-1", some 0, some 86400, []⟩ : RIssue),
        (⟨"SE-2", some 86400, some 0, []⟩ : RIssue)] : List RIssue).length := by
  have hx : ∃ i ∈ [(⟨"SE-1", some 0, some 86400, []⟩ : RIssue),
      (⟨"SE-2", some 86400, some 0, []⟩ : RIssue)], resolution_days i < 0 :=
    ⟨⟨"SE-2", some 86400, some 0, []⟩,
     List.mem_cons_of_mem _ (List.mem_singleton_self _),
     by norm_num [resolution_days]⟩
  exact ⟨hx,
    (claim_C10_buckets_invariant
      [⟨"SE-1", some 0, some 86400, []⟩, ⟨"SE-2", some 86400, some 0, []⟩]).2.2 hx⟩

/-- The Boolean item scan agrees with the spec-side description of a
status transition into a terminal state. -/
theorem hasTerminalStatusItem_iff (items : List ChangeItem) :
    hasTerminalStatusItem items = true ↔
      ∃ it ∈ items, it.field = "status" ∧ it.toString ∈ terminal_states := by
  simp [hasTerminalStatusItem, List.any_eq_true, Bool.and_eq_true, beq_iff_eq,
    List.elem_iff]

/-- When no history qualifies, the changelog scan yields `none`. -/
theorem find_res_none (hs : List History)
    (h : ∀ g ∈ hs, hasTerminalStatusItem g.items = false) :
    find_resolution_date_in_changelog hs = none := by
  induction hs with
  | nil => rfl
  | cons g gs ih =>
      unfold find_resolution_date_in_changelog
      simp [h g (by simp)]
      exact ih fun g2 hg2 => h g2 (by simp [hg2])

/-- The changelog scan returns the `created` of the first qualifying history. -/
theorem find_res_first (pre : List History) (h : History) (post : List History)
    (hpre : ∀ g ∈ pre, hasTerminalStatusItem g.items = false)
    (hh : hasTerminalStatusItem h.items = true) :
    find_resolution_date_in_changelog (pre ++ h :: post) = some h.created := by
  induction pre with
  | nil => simp [find_resolution_date_in_changelog, hh]
  | cons g gs ih =>
      rw [List.cons_append]
      unfold find_resolution_date_in_changelog
      simp [hpre g (by simp)]
      exact ih fun g2 hg2 => hpre g2 (by simp [hg2])

/-- Claim C4: for a ticket whose `resolved` field is absent but whose
`created` is present, the derived resolution timestamp is the `created` of
the first history entry carrying a status transition into the terminal set;
when no such entry exists the derivation is `none` and the ticket's
resolution duration is `0`. -/
theorem claim_C4_changelog_fallback (i : RIssue) (c : ℚ)
    (hcr : i.created = some c) (hres : i.resolved = none) :
    ((∀ h ∈ i.histories, ¬ ∃ it ∈ h.items, it.field = "status" ∧ it.toString ∈ terminal_states) →
        find_resolution_date_in_changelog i.histories = none ∧ resolution_days i = 0) ∧
    (∀ pre h post, i.histories = pre ++ h :: post →
        (∀ g ∈ pre, ¬ ∃ it ∈ g.items, it.field = "status" ∧ it.toString ∈ terminal_states) →
        (∃ it ∈ h.items, it.field = "status" ∧ it.toString ∈ terminal_states) →
        find_resolution_date_in_changelog i.histories = some h.created) := by
  constructor
  · intro hnone
    have hfind : find_resolution_date_in_changelog i.histories = none :=
      find_res_none _ fun g hg => by
        have h2 := hnone g hg
        rw [← hasTerminalStatusItem_iff] at h2
        simpa using h2
    refine ⟨hfind, ?_⟩
    obtain ⟨k, cr, rs, hs⟩ := i
    simp only [RIssue.created] at hcr
    simp only [RIssue.resolved] at hres
    subst hcr
    subst hres
    simp only [RIssue.histories] at hfind
    simp [resolution_days, hfind]
  · intro pre h post heq hpre hh
    rw [heq]
    exact find_res_first _ _ _
      (fun g hg => by
        have h2 := hpre g hg
        rw [← hasTerminalStatusItem_iff] at h2
        simpa using h2)
      ((hasTerminalStatusItem_iff _).mpr hh)

/-- Witness for claim C4: a two-entry changelog where the second entry is
the first status transition to Done. -/
theorem claim_C4_witness :
    (RIssue.created ⟨"SE-9", some 0, none,
        [⟨3600, [⟨"assignee", "Bob"⟩]⟩, ⟨86400, [⟨"status", "Done"⟩]⟩]⟩ = some 0) ∧
    (RIssue.resolved ⟨"SE-9", some 0, none,
        [⟨3600, [⟨"assignee", "Bob"⟩]⟩, ⟨86400, [⟨"status", "Done"⟩]⟩]⟩ = none) ∧
    find_resolution_date_in_changelog
        [⟨3600, [⟨"assignee", "Bob"⟩]⟩, ⟨86400, [⟨"status", "Done"⟩]⟩] = some 86400 := by
  refine ⟨rfl, rfl, ?_⟩
  exact (claim_C4_changelog_fallback
      ⟨"SE-9", some 0, none, [⟨3600, [⟨"assignee", "Bob"⟩]⟩, ⟨86400, [⟨"status", "Done"⟩]⟩]⟩
      0 rfl rfl).2
    [⟨3600, [⟨"assignee", "Bob"⟩]⟩] ⟨86400, [⟨"status", "Done"⟩]⟩ [] rfl
    (by decide) (by decide)

/-- Once a key is in `seen`, the dedup loop never emits an issue with it. -/
theorem merge_filter_seen (l : List RIssue) :
    ∀ (seen : List String) (k : String), k ∈ seen →
      (merge_resolved seen l).filter (fun i => i.key == k) = [] := by
  induction l with
  | nil => intro seen k _; rfl
  | cons i rest ih =>
      intro seen k hk
      unfold merge_resolved
      by_cases hc : seen.contains i.key
      · simp only [hc, if_pos]
        exact ih seen k hk
      · simp only [hc, if_neg, Bool.false_eq_true, not_false_eq_true]
        have hik : (i.key == k) = false := by
          rw [beq_eq_false_iff_ne]
          intro he
          exact hc (List.elem_iff.mpr (he ▸ hk))
        rw [List.filter_cons_of_neg (by simp [hik])]
        exact ih (i.key :: seen) k (by simp [hk])

/-- For a key not yet seen, the dedup loop keeps exactly the first input
issue with that key (and nothing else with it). -/
theorem merge_filter_unseen (l : List RIssue) :
    ∀ (seen : List String) (k : String), k ∉ seen →
      (merge_resolved seen l).filter (fun i => i.key == k)
        = (l.find? (fun i => i.key == k)).toList := by
  induction l with
  | nil => intro seen k _; rfl
  | cons i rest ih =>
      intro seen k hk
      unfold merge_resolved
      by_cases hc : seen.contains i.key
      · have hik : (i.key == k) = false := by
          rw [beq_eq_false_iff_ne]
          intro he
          exact hk (he ▸ List.elem_iff.mp hc)
        simp only [hc, if_pos]
        rw [ih seen k hk, List.find?_cons_of_neg _ (by simp [hik])]
      · simp only [hc, if_neg, Bool.false_eq_true, not_false_eq_true]
        by_cases he : i.key = k
        · rw [List.filter_cons_of_pos (by simp [he]),
            List.find?_cons_of_pos _ (by simp [he]),
            merge_filter_seen rest (i.key :: seen) k (by simp [he])]
          rfl
        · rw [List.filter_cons_of_neg (by simp [he]),
            List.find?_cons_of_neg _ (by simp [he])]
          exact ih (i.key :: seen) k (by
            simp only [List.mem_cons, not_or]
            exact ⟨fun h => he h.symm, hk⟩)

/-- A list whose matches are exactly `[x]` has `x` as its first match. -/
theorem find?_of_filter_singleton {α : Type} (p : α → Bool) (l : List α) (x : α)
    (h : l.filter p = [x]) : l.find? p = some x := by
  induction l with
  | nil => simp at h
  | cons a rest ih =>
      by_cases hp : p a
      · rw [List.filter_cons_of_pos hp] at h
        obtain ⟨h1, _⟩ := List.cons_eq_cons.mp h
        rw [List.find?_cons_of_pos _ hp, h1]
      · rw [List.filter_cons_of_neg hp] at h
        rw [List.find?_cons_of_neg _ hp]
        exact ih h

/-- Claim C3: a ticket key present in both resolved-query result sets
contributes exactly one ticket to the merged list, and the occurrence kept
is the first one in query order. -/
theorem claim_C3_merge_dedup (r1 r2 : List RIssue) (k : String)
    (h1 : ∃ i ∈ r1, i.key = k) (h2 : ∃ i ∈ r2, i.key = k) :
    ((merge_resolved [] (r1 ++ r2)).filter (fun i => i.key == k)).length = 1 ∧
    (merge_resolved [] (r1 ++ r2)).find? (fun i => i.key == k)
      = (r1 ++ r2).find? (fun i => i.key == k) := by
  have hm := merge_filter_unseen (r1 ++ r2) [] k (by simp)
  obtain ⟨i, hi, hik⟩ := h1
  have hsome : ((r1 ++ r2).find? (fun i => i.key == k)).isSome :=
    List.find?_isSome.mpr ⟨i, List.mem_append_left _ hi, by simp [hik]⟩
  obtain ⟨x, hx⟩ := Option.isSome_iff_exists.mp hsome
  rw [hx] at hm
  exact ⟨by rw [hm]; rfl, (find?_of_filter_singleton _ _ _ hm).trans hx.symm⟩

/-- Witness for claim C3: the key SE-1 appears in both query results. -/
theorem claim_C3_witness :
    (∃ i ∈ [(⟨"SE-1", none, none, []⟩ : RIssue)], i.key = "SE-1") ∧
    (∃ i ∈ [(⟨"SE-1", some 0, none, []⟩ : RIssue), (⟨"SE-2", none, none, []⟩ : RIssue)],
       i.key = "SE-1") ∧
    ((merge_resolved []
        ([(⟨"SE-1", none, none, []⟩ : RIssue)]
          ++ [(⟨"SE-1", some 0, none, []⟩ : RIssue), (⟨"SE-2", none, none, []⟩ : RIssue)])).filter
        (fun i => i.key == "SE-1")).length = 1 := by
  refine ⟨⟨⟨"SE-1", none, none, []⟩, by simp, rfl⟩,
    ⟨⟨"SE-1", some 0, none, []⟩, by simp, rfl⟩, ?_⟩
  exact (claim_C3_merge_dedup [⟨"SE-1", none, none, []⟩]
    [⟨"SE-1", some 0, none, []⟩, ⟨"SE-2", none, none, []⟩] "SE-1"
    ⟨⟨"SE-1", none, none, []⟩, by simp, rfl⟩
    ⟨⟨"SE-1", some 0, none, []⟩, by simp, rfl⟩).1

/-- The initial-segment scan agrees with list-prefix containment. -/
theorem startsWith_iff (p : List Char) :
    ∀ t : List Char, startsWith p t = true ↔ p <+: t := by
  induction p with
  | nil => intro t; simp [startsWith]
  | cons a ps ih =>
      intro t
      cases t with
      | nil =>
          simp only [startsWith, Bool.false_eq_true, false_iff]
          intro hpre
          simpa using List.eq_nil_of_prefix_nil hpre
      | cons b ts =>
          simp [startsWith, List.cons_prefix_cons, ih ts, Bool.and_eq_true, beq_iff_eq]

/-- The Python substring scan agrees with list-infix containment. -/
theorem containsSub_iff (p : List Char) :
    ∀ t : List Char, containsSub p t = true ↔ p <:+: t := by
  intro t
  induction t with
  | nil =>
      simp only [containsSub, startsWith_iff]
      constructor
      · intro h
        exact h.isInfix
      · intro h
        exact (List.eq_nil_of_infix_nil h) ▸ List.nil_prefix
  | cons c cs ih =>
      simp [containsSub, Bool.or_eq_true, startsWith_iff, ih, List.infix_cons_iff]

/-- Claim C5: a new ticket is classified as an incident iff its priority is
Highest or Critical, or some label contains the substring "incident"
case-insensitively. -/
theorem claim_C5_incident_iff (priority : String) (labels : List String) :
    is_incident priority labels = true ↔
      (priority = "Highest" ∨ priority = "Critical" ∨
        ∃ l ∈ labels, lowerChars "incident".toList <:+: lowerChars l.toList) := by
  have hfix : lowerChars "incident".toList = "incident".toList := rfl
  simp only [is_incident, Bool.or_eq_true, List.any_eq_true, beq_iff_eq,
    containsSub_iff, hfix, or_assoc]

/-- Claim C6: when the pages before some request are all successful and
full (so the loop keeps going) and that request returns a non-200 status,
the fetch loop stops there and returns exactly the issues accumulated from
the earlier pages — not an empty list and not an error. -/
theorem claim_C6_fetch_stops {α : Type} (max_results : ℕ) (pre : List (JiraPage α))
    (bad : JiraPage α) (post : List (JiraPage α)) (start_at : ℕ) (acc : List α)
    (hok : ∀ p ∈ pre, p.status_code = 200)
    (hfull : ∀ j (hj : j < pre.length),
      max_results ≤ (pre.get ⟨j, hj⟩).issues.length ∧
        start_at + (j + 1) * max_results < (pre.get ⟨j, hj⟩).total)
    (hbad : bad.status_code ≠ 200) :
    fetch_jira_data max_results (pre ++ bad :: post) start_at acc
      = acc ++ (pre.map JiraPage.issues).flatten := by
  revert hok hfull
  induction pre generalizing start_at acc with
  | nil =>
      intro _ _
      rw [List.nil_append]
      unfold fetch_jira_data
      rw [if_pos hbad]
      simp
  | cons g gs ih =>
      intro hok hfull
      have hg : g.status_code = 200 := hok g (by simp)
      have h0 := hfull 0 (by simp)
      simp only [List.get] at h0
      have hcontinue : ¬ (g.issues.length < max_results ∨ start_at + max_results ≥ g.total) := by
        push_neg
        refine ⟨h0.1, ?_⟩
        have h2 : start_at + max_results < g.total := by simpa using h0.2
        omega
      rw [List.cons_append]
      unfold fetch_jira_data
      rw [if_neg (by simp [hg])]
      show (if g.issues.length < max_results ∨ start_at + max_results ≥ g.total
          then acc ++ g.issues
          else fetch_jira_data max_results (gs ++ bad :: post) (start_at + max_results)
            (acc ++ g.issues)) = _
      rw [if_neg hcontinue]
      rw [ih (start_at + max_results) (acc ++ g.issues)
        (fun p hp => hok p (by simp [hp]))
        (fun j hj => by
          have h2 := hfull (j + 1) (by simpa using Nat.succ_lt_succ hj)
          have h3 : (j + 1 + 1) * max_results = (j + 1) * max_results + max_results :=
            Nat.succ_mul _ _
          rw [h3] at h2
          simp only [List.get] at h2
          refine ⟨h2.1, ?_⟩
          linarith [h2.2])]
      simp

/-- Witness for claim C6: a failure on page 2 of a 3-page sequence returns
exactly the issues of page 1 (and nothing raised, nothing dropped). -/
theorem claim_C6_witness :
    ((⟨200, ["a", "b"], 5⟩ : JiraPage String).status_code = 200) ∧
    ((⟨500, ["c", "d"], 5⟩ : JiraPage String).status_code ≠ 200) ∧
    fetch_jira_data 2
        [⟨200, ["a", "b"], 5⟩, ⟨500, ["c", "d"], 5⟩, ⟨200, ["e"], 5⟩] 0 []
      = ["a", "b"] := by
  refine ⟨rfl, by decide, ?_⟩
  have h := claim_C6_fetch_stops 2 [⟨200, ["a", "b"], 5⟩] (⟨500, ["c", "d"], 5⟩ : JiraPage String)
    [⟨200, ["e"], 5⟩] 0 []
    (fun p hp => by simpa using congrArg JiraPage.status_code (List.mem_singleton.mp hp))
    (fun j hj => by
      cases j with
      | zero =>
          simp only [List.get]
          exact ⟨by decide, by decide⟩
      | succ n => exact absurd hj (by simp))
    (by decide)
  simpa using h

/-- A text either fails the head match structurally or starts with `SE-`. -/
theorem matchSEAt_shape (t : List Char) :
    matchSEAt t = none ∨ ∃ u, t = 'S' :: 'E' :: '-' :: u := by
  unfold matchSEAt
  split
  · next rest => exact Or.inr ⟨rest, rfl⟩
  · exact Or.inl rfl

/-- When the pattern matches at the head, `matchSEAt` returns `SE-` plus
the maximal digit run (greedy `\d+`). -/
theorem matchSEAt_of_head (t : List Char) (h : seMatchHead t) :
    matchSEAt t = some ('S' :: 'E' :: '-' :: (t.drop 3).takeWhile Char.isDigit) := by
  obtain ⟨⟨u, hu⟩, hd⟩ := h
  subst hu
  simp only [List.cons_append, List.nil_append] at hd ⊢
  cases u with
  | nil => simp at hd
  | cons d u2 =>
      have hdig : d.isDigit = true := by simpa using hd
      simp [matchSEAt, List.takeWhile_cons, hdig]

/-- Here `matchSEAt` yields `none` exactly when the head-match predicate fails. -/
theorem matchSEAt_none_iff (t : List Char) : matchSEAt t = none ↔ ¬ seMatchHead t := by
  constructor
  · intro hn hh
    rw [matchSEAt_of_head t hh] at hn
    exact Option.noConfusion hn
  · intro hh
    rcases matchSEAt_shape t with h | ⟨u, hu⟩
    · exact h
    · subst hu
      have hd : ¬ ((List.drop 3 ('S' :: 'E' :: '-' :: u)).head?.any Char.isDigit = true) :=
        fun hcontra => hh ⟨⟨u, rfl⟩, hcontra⟩
      cases u with
      | nil => simp [matchSEAt]
      | cons d u2 =>
          have hdig : d.isDigit = false := by simpa using hd
          simp [matchSEAt, List.takeWhile_cons, hdig]

/-- When the pattern occurs nowhere, the regex search fails. -/
theorem re_search_none (t : List Char) (h : ∀ i, ¬ seMatchStartsAt t i) :
    re_search_se t = none := by
  induction t with
  | nil => rfl
  | cons c cs ih =>
      have h0 : ¬ seMatchHead (c :: cs) := by
        have h1 := h 0
        simpa [seMatchStartsAt] using h1
      simp only [re_search_se]
      rw [(matchSEAt_none_iff _).mpr h0]
      exact ih fun i => by
        have h1 := h (i + 1)
        simpa [seMatchStartsAt] using h1

/-- The regex search returns the match at the leftmost matching position,
with the greedy digit run. -/
theorem re_search_first (t : List Char) :
    ∀ i : ℕ, seMatchStartsAt t i → (∀ j, j < i → ¬ seMatchStartsAt t j) →
      re_search_se t = some ('S' :: 'E' :: '-' :: (t.drop (i + 3)).takeWhile Char.isDigit) := by
  induction t with
  | nil =>
      intro i hi _
      exfalso
      simp only [seMatchStartsAt, seMatchHead, List.drop_nil] at hi
      obtain ⟨⟨u, hu⟩, _⟩ := hi
      simp at hu
  | cons c cs ih =>
      intro i hi hmin
      cases i with
      | zero =>
          have hh : seMatchHead (c :: cs) := by simpa [seMatchStartsAt] using hi
          simp only [re_search_se]
          rw [matchSEAt_of_head _ hh]
      | succ i2 =>
          have h0 : ¬ seMatchHead (c :: cs) := by
            have h1 := hmin 0 (Nat.succ_pos _)
            simpa [seMatchStartsAt] using h1
          simp only [re_search_se]
          rw [(matchSEAt_none_iff _).mpr h0]
          have hi2 : seMatchStartsAt cs i2 := by simpa [seMatchStartsAt] using hi
          have hmin2 : ∀ j, j < i2 → ¬ seMatchStartsAt cs j := fun j hj => by
            have h1 := hmin (j + 1) (Nat.succ_lt_succ hj)
            simpa [seMatchStartsAt] using h1
          exact ih i2 hi2 hmin2

/-- Counterexample to claim C9 as stated: a transfer ticket whose text
contains `SE-` but no digit after it gets the default key `"Unknown"`,
which is not the claimed string `"unknown"`. -/
theorem claim_C9_counterexample :
    is_se_transfer "SE-x".toList [] = true ∧
    original_se_key "SE-x".toList [] ≠ "unknown".toList := by
  decide

/-- Claim C9 (amended): for a transfer ticket, the recorded origin key is
`SE-` plus the greedy digit run at the leftmost position of the
summary-plus-description text where `SE-` is followed by a digit, and
defaults to `"Unknown"` (capital U) when no such position exists. -/
theorem claim_C9_origin_key (summary description : List Char)
    (htr : is_se_transfer summary description = true) :
    ((∀ i, ¬ seMatchStartsAt (summary ++ ' ' :: description) i) →
        original_se_key summary description = "Unknown".toList) ∧
    (∀ i, seMatchStartsAt (summary ++ ' ' :: description) i →
        (∀ j, j < i → ¬ seMatchStartsAt (summary ++ ' ' :: description) j) →
        original_se_key summary description =
          'S' :: 'E' :: '-' ::
            ((summary ++ ' ' :: description).drop (i + 3)).takeWhile Char.isDigit) := by
  constructor
  · intro hnone
    unfold original_se_key
    rw [if_pos htr, re_search_none _ hnone]
  · intro i hi hmin
    unfold original_se_key
    rw [if_pos htr, re_search_first _ i hi hmin]

/-- Witness for the amended claim C9: in `"re SE-12" + " " + "x"` the
leftmost match is at position 3 and the extracted key is `SE-12`. -/
theorem claim_C9_witness :
    is_se_transfer "re SE-12".toList "x".toList = true ∧
    seMatchStartsAt ("re SE-12".toList ++ ' ' :: "x".toList) 3 ∧
    (∀ j, j < 3 → ¬ seMatchStartsAt ("re SE-12".toList ++ ' ' :: "x".toList) j) ∧
    original_se_key "re SE-12".toList "x".toList =
      'S' :: 'E' :: '-' ::
        (("re SE-12".toList ++ ' ' :: "x".toList).drop (3 + 3)).takeWhile Char.isDigit := by
  refine ⟨by decide, by decide, by decide, ?_⟩
  exact (claim_C9_origin_key "re SE-12".toList "x".toList (by decide)).2 3
    (by decide) (by decide)

end SEMetrics
